import Mathlib

/-!
Verification development for the frai repository (AI contract generator
frontend).  The definitions below are a shallow embedding of the TypeScript
sources:

  * `src/frontend/src/components/ContractGenerator.tsx`
    (streaming client `handleGenerateContract`, `getFullContract`,
    `handleStopGeneration`, `handleDownload`, and the render conditions),
  * `src/frontend/src/components/ContractForm.tsx` (`handleSubmit`),
  * the shared type declarations (`ContractType`, `BusinessContext`,
    `ContractGenerationRequest`, `ContractGenerationResponse`).

JavaScript string primitives used by the code (`String.prototype.includes`,
`startsWith`, `slice`, `split` with a one-character separator, `trim`) are
embedded as structurally recursive functions over `List Char` so that every
definition is executable and kernel-reducible.
-/

/-! ## JavaScript string primitives -/

/-- JavaScript `s.startsWith(p)` on character lists. -/
def startsWithL : List Char → List Char → Bool
  | _, [] => true
  | [], _ :: _ => false
  | c :: cs, p :: ps => c == p && startsWithL cs ps

/-- JavaScript `s.includes(pat)` on character lists: `pat` occurs as a
contiguous substring of `s`. -/
def containsL (pat : List Char) : List Char → Bool
  | [] => startsWithL [] pat
  | c :: cs => startsWithL (c :: cs) pat || containsL pat cs

/-- JavaScript `s.includes(pat)`. -/
def jsIncludes (s pat : String) : Bool := containsL pat.data s.data

/-- JavaScript `s.startsWith(pat)`. -/
def jsStartsWith (s pat : String) : Bool := startsWithL s.data pat.data

/-- JavaScript `s.slice(n)` (drop the first `n` characters). -/
def jsSlice (s : String) (n : Nat) : String := String.mk (s.data.drop n)

/-- Helper for `jsSplitChar`: prepend a character to the first field of a
split result. -/
def consHead (c : Char) : List (List Char) → List (List Char)
  | [] => [[c]]
  | h :: t => (c :: h) :: t

/-- JavaScript `s.split(sep)` for a one-character separator, on character
lists.  `jsSplitChar sep [] = [[]]`, matching `"".split(sep) = [""]`. -/
def jsSplitChar (sep : Char) : List Char → List (List Char)
  | [] => [[]]
  | c :: cs =>
    if c == sep then [] :: jsSplitChar sep cs
    else consHead c (jsSplitChar sep cs)

/-- JavaScript `s.split(sep)` for a one-character separator string.  The
streaming client only ever splits on `"\n"` and `"="`. -/
def jsSplit (s : String) (sep : Char) : List String :=
  (jsSplitChar sep s.data).map String.mk

/-- JavaScript `line.split("=")[1]` as used at `ContractGenerator.tsx` line 83.  Every
line on which the client evaluates this contains `"[END_OF_DOC="` and hence
at least one `'='`, so the index-1 field exists there; the default `""` is
never reached on those lines. -/
def jsSplitEq1 (line : String) : String := (jsSplit line '=').getD 1 ""

/-- Whitespace characters removed by JavaScript `trim` (the ASCII ones,
which are the only ones the form's description text is trimmed of). -/
def isJsSpace (c : Char) : Bool :=
  c == ' ' || c == '\t' || c == '\n' || c == '\r'

/-- JavaScript `s.trim()`. -/
def jsTrim (s : String) : String :=
  String.mk (((s.data.dropWhile isJsSpace).reverse.dropWhile isJsSpace).reverse)

/-! ## Shared type declarations (`types.ts`) -/

/-- The `ContractType` enumeration. -/
inductive ContractType where
  | terms_of_service
  | privacy_policy
  | service_agreement
  | nda
  | employment_contract
  | partnership_agreement
deriving DecidableEq, Repr

/-- The `BusinessContext` interface: free-text description plus optional fields. -/
structure BusinessContext where
  description : String
  industry : Option String := none
  location : Option String := none
  company_size : Option String := none
deriving DecidableEq, Repr

/-! ## Streaming client (`ContractGenerator.tsx`) -/

/-- The sentinel marker searched for at `ContractGenerator.tsx` line 80. -/
def endOfDocMarker : String := "[END_OF_DOC="

/-- Result of running the read loop of `handleGenerateContract` over a
sequence of lines: still consuming (`ongoing`), terminated by an
`Error:`-prefixed data payload (`errored`, carrying the thrown payload and
the content accumulated so far), or terminated by a line containing the
sentinel marker (`fetched`, carrying the argument passed to
`getFullContract` and the content accumulated so far). -/
inductive Outcome where
  | ongoing (content : String)
  | errored (msg : String) (content : String)
  | fetched (contractId : String) (content : String)
deriving DecidableEq, Repr

/-- The inner `for (const line of lines)` loop of `handleGenerateContract`
(`ContractGenerator.tsx` lines 79-96): a line containing `"[END_OF_DOC="`
triggers `getFullContract(line.split("=")[1])` and returns; otherwise a
line starting with `"data: "` has its payload `line.slice(6)` checked for
the `"Error:"` prefix (thrown) and appended to the accumulated content
otherwise; any other line is skipped. -/
def processLines : List String → String → Outcome
  | [], content => Outcome.ongoing content
  | line :: rest, content =>
    if jsIncludes line endOfDocMarker then
      Outcome.fetched (jsSplitEq1 line) content
    else if jsStartsWith line "data: " then
      if jsStartsWith (jsSlice line 6) "Error:" then
        Outcome.errored (jsSlice line 6) content
      else
        processLines rest (content ++ jsSlice line 6)
    else
      processLines rest content

/-- The outer `while (true)` read loop (`ContractGenerator.tsx` lines
72-97): each received chunk is decoded and split on `"\n"` independently
(`chunk.split("\n")`), and its lines are processed in order.  A `fetched`
or `errored` outcome ends the loop. -/
def processChunks : List String → String → Outcome
  | [], content => Outcome.ongoing content
  | c :: rest, content =>
    match processLines (jsSplit c '\n') content with
    | Outcome.ongoing c2 => processChunks rest c2
    | o => o

/-- How the stream terminates from the client's point of view when no
sentinel and no error line was seen: the reader reports `done` (`eof`), or
the user clicked Stop and `handleStopGeneration` fired the abort signal,
making the pending read throw `AbortError` (`aborted`). -/
inductive StreamEnd where
  | eof
  | aborted
deriving DecidableEq, Repr

/-- The component state of `ContractGenerator` after a generation session
ends, plus the list of `contract_id`s posted to
`/api/generate-contract-full` during the session.  `α` is the (opaque)
JSON document type of the full-document response. -/
structure GenFinal (α : Type) where
  isGenerating : Bool
  contractData : Option α
  streamingContent : String
  error : Option String
  fetchRequests : List String
deriving DecidableEq, Repr

/-- One whole generation session of `handleGenerateContract`
(`ContractGenerator.tsx` lines 33-108): state is reset (`content = ""`,
`contractData = null`, `error = null`), the chunks are consumed, and then:

* sentinel seen → `getFullContract id` is awaited (modelled by `retrieve`,
  returning the parsed JSON or the message of the thrown HTTP error) and
  the function returns;
* `Error:` payload seen → the throw is caught and `setError(err.message)`
  runs (`new Error(data).message = data`);
* stream ends with neither → `eof` leaves state as is, while `aborted`
  makes the pending read throw `AbortError`, caught as
  `setError("Contract generation was cancelled")`.

The `finally` block always runs `setIsGenerating(false)`. -/
def runSession {α : Type} (chunks : List String) (ending : StreamEnd)
    (retrieve : String → Except String α) : GenFinal α :=
  match processChunks chunks "" with
  | Outcome.fetched id cont =>
    match retrieve id with
    | Except.ok d =>
      { isGenerating := false, contractData := some d,
        streamingContent := cont, error := none, fetchRequests := [id] }
    | Except.error e =>
      { isGenerating := false, contractData := none,
        streamingContent := cont, error := some e, fetchRequests := [id] }
  | Outcome.errored m cont =>
    { isGenerating := false, contractData := none,
      streamingContent := cont, error := some m, fetchRequests := [] }
  | Outcome.ongoing cont =>
    match ending with
    | StreamEnd.eof =>
      { isGenerating := false, contractData := none,
        streamingContent := cont, error := none, fetchRequests := [] }
    | StreamEnd.aborted =>
      { isGenerating := false, contractData := none,
        streamingContent := cont,
        error := some "Contract generation was cancelled",
        fetchRequests := [] }

/-- Concatenation of a list of strings (arrival order preserved). -/
def concatAll : List String → String
  | [] => ""
  | s :: rest => s ++ concatAll rest

/-- The payloads of the data lines of a line sequence: the text after the
`"data: "` prefix of every line carrying it, in order. -/
def dataPayloads (ls : List String) : List String :=
  (ls.filter (fun l => jsStartsWith l "data: ")).map (fun l => jsSlice l 6)

/-- The lines the client actually forms from a chunk sequence: each chunk
split on `"\n"` separately, concatenated. -/
def chunkLines (cs : List String) : List String :=
  (cs.map (fun c => jsSplit c '\n')).flatten

/-- The lines of the underlying received stream: the reassembled stream
text split on `"\n"`.  This is the reading of "received line" in which a
line can span a chunk boundary. -/
def receivedLines (cs : List String) : List String :=
  jsSplit (concatAll cs) '\n'

/-- Helper rejoining split fields with `'='` between them. -/
def joinEq : List String → String
  | [] => ""
  | [s] => s
  | s :: rest => s ++ "=" ++ joinEq rest

/-- Modelled from the spec sentence behind C9: the text after the line's
first `'='` (everything from the first `'='` to the end of the line).
This is the parse the claim describes, to be compared with the code's
`line.split("=")[1]` (`jsSplitEq1`). -/
def afterFirstEq (line : String) : String :=
  joinEq ((jsSplit line '=').drop 1)

/-! ## Contract form (`ContractForm.tsx`) -/

/-- The object literal built and passed to `onSubmit` by `handleSubmit`
(`ContractForm.tsx` lines 35-42): a `business_context` holding only the
trimmed description, and the `contract_type` state. -/
structure SubmittedForm where
  business_context : BusinessContext
  contract_type : ContractType
deriving DecidableEq, Repr

/-- The `handleSubmit` handler of `ContractForm.tsx` (lines 27-43): when
the trimmed description is empty (`!businessDescription.trim()`), it
alerts and returns without submitting; otherwise it submits the form data
with the trimmed description. -/
def handleSubmit (businessDescription : String)
    (contractType : ContractType) : Option SubmittedForm :=
  if jsTrim businessDescription = "" then none
  else
    some { business_context := { description := jsTrim businessDescription },
           contract_type := contractType }

/-- The component state of `ContractForm`: the `businessDescription` and
`contractType` `useState` hooks (`ContractForm.tsx` lines 22-25). -/
structure FormState where
  businessDescription : String
  contractType : ContractType
deriving DecidableEq, Repr

/-- Initial form state: empty description and
`ContractType.TERMS_OF_SERVICE` (`ContractForm.tsx` lines 22-25). -/
def initialFormState : FormState :=
  { businessDescription := "", contractType := ContractType.terms_of_service }

/-- User interactions the rendered form offers: typing in the description
textarea (its `onChange` calls `setBusinessDescription`) and submitting.
The contract-type selector is commented out in the JSX (`ContractForm.tsx`
lines 126-152), so no rendered interaction calls `setContractType`. -/
inductive FormEvent where
  | setDescription (s : String)
  | submitForm
deriving DecidableEq, Repr

/-- One step of the form component: the new state and the form data
submitted by this event, if any. -/
def formStep (st : FormState) : FormEvent → FormState × Option SubmittedForm
  | FormEvent.setDescription s => ({ st with businessDescription := s }, none)
  | FormEvent.submitForm =>
    (st, handleSubmit st.businessDescription st.contractType)

/-- All form data submitted over a sequence of user interactions, in
order. -/
def submittedForms (st : FormState) : List FormEvent → List SubmittedForm
  | [] => []
  | e :: rest =>
    match formStep st e with
    | (st2, some f) => f :: submittedForms st2 rest
    | (st2, none) => submittedForms st2 rest

/-- Modelled from the spec: the Generation Endpoint "validates required
fields (non-empty description, ...)".  The backend handler is not among
the sources; this predicate captures its non-empty-description check on a
submitted business context. -/
def descriptionNonEmpty (b : BusinessContext) : Bool :=
  !(b.description == "")

/-! ## Field-name views of the request and response objects

The remaining claims are about which JSON fields objects carry, so the
relevant objects are embedded as lists of field names, read off the
object literals and `interface` declarations of the sources. -/

/-- Field names of the object `handleSubmit` builds and that
`handleGenerateContract` serializes verbatim with `JSON.stringify`
(`ContractForm.tsx` lines 35-40). -/
def submittedRequestFields : List String :=
  ["business_context", "contract_type"]

/-- Required (non-optional) field names of the `ContractGenerationRequest`
interface (`types.ts`): `custom_sections` and `jurisdiction` are optional,
`language` is not. -/
def contractGenerationRequestRequiredFields : List String :=
  ["business_context", "contract_type", "language"]

/-- An object with the given field names carries every required field of
`ContractGenerationRequest`. -/
def conformsToContractGenerationRequest (fields : List String) : Bool :=
  contractGenerationRequestRequiredFields.all (fun f => fields.contains f)

/-- Field names of the `ContractGenerationResponse` interface
(`types.ts`), the full-document retrieval response type. -/
def contractGenerationResponseFields : List String :=
  ["contract_id", "contract_type", "sections", "total_sections",
   "estimated_pages", "generation_time", "model_used"]

/-- Metadata field names the completed view reads from the fetched
document (`ContractDisplay.tsx` lines 29-50: `metadata.contract_type`,
`metadata.total_sections`, `metadata.estimated_pages`,
`metadata.generation_time`, `metadata.model_used`). -/
def completedViewMetadataFields : List String :=
  ["contract_type", "total_sections", "estimated_pages",
   "generation_time", "model_used"]

/-- All field names the completed view reads from the fetched document:
the rendered content `contractData.htmlContent`
(`ContractGenerator.tsx` line 260) plus the metadata fields. -/
def completedViewFieldsRead : List String :=
  "htmlContent" :: completedViewMetadataFields

/-- Field names of the client's `ContractData` interface
(`ContractGenerator.tsx` lines 15-24). -/
def contractDataStateFields : List String :=
  ["contractId", "contractType", "sections", "totalSections",
   "estimatedPages", "generationTime", "modelUsed", "htmlContent"]

/-- The `businessContext` value `handleDownload` puts into the download
request body (`ContractGenerator.tsx` line 152): the result of reading the
field `businessContext` off the `contractData` object, `none` standing for
JavaScript `undefined` when the object has no such field. -/
def downloadBodyBusinessContext {α : Type}
    (contractData : List (String × α)) : Option α :=
  List.lookup "businessContext" contractData

/-- Render condition of the completed view (`ContractGenerator.tsx` line
258: the block guarded by `contractData && ...`). -/
def showsCompletedView {α : Type} (st : GenFinal α) : Bool :=
  st.contractData.isSome

/-- Render condition of the streamed partial view (`ContractGenerator.tsx`
line 251: the block guarded by `streamingContent && !contractData`). -/
def showsPartialStream {α : Type} (st : GenFinal α) : Bool :=
  !(st.streamingContent == "") && st.contractData.isNone

/-! ## Basic lemmas about the embedded primitives -/

theorem str_append_empty (s : String) : s ++ "" = s := by
  cases s with
  | mk d => exact congrArg String.mk (List.append_nil d)

theorem str_append_assoc (a b c : String) : a ++ b ++ c = a ++ (b ++ c) := by
  cases a with
  | mk x =>
    cases b with
    | mk y =>
      cases c with
      | mk z => exact congrArg String.mk (List.append_assoc x y z)

theorem startsWithL_append (p t : List Char) : startsWithL (p ++ t) p = true := by
  induction p with
  | nil => cases t <;> simp [startsWithL]
  | cons c cs ih => simp [startsWithL, ih]

theorem containsL_of_startsWithL (pat s : List Char)
    (h : startsWithL s pat = true) : containsL pat s = true := by
  cases s with
  | nil => simpa [containsL] using h
  | cons c cs => simp [containsL, h]

theorem jsSplitChar_not_mem (sep : Char) (l : List Char) (h : sep ∉ l) :
    jsSplitChar sep l = [l] := by
  induction l with
  | nil => rfl
  | cons c cs ih =>
    have h1 : ¬ (sep = c) := fun e => h (e ▸ List.mem_cons_self c cs)
    have h2 : sep ∉ cs := fun m => h (List.mem_cons_of_mem c m)
    have hc : (c == sep) = false := by
      simp only [beq_eq_false_iff_ne]
      exact fun e => h1 e.symm
    simp [jsSplitChar, hc, ih h2, consHead]

theorem jsSplitChar_append (sep : Char) (pre post : List Char) (h : sep ∉ pre) :
    jsSplitChar sep (pre ++ sep :: post) = pre :: jsSplitChar sep post := by
  induction pre with
  | nil => simp [jsSplitChar]
  | cons c cs ih =>
    have h1 : ¬ (sep = c) := fun e => h (e ▸ List.mem_cons_self c cs)
    have h2 : sep ∉ cs := fun m => h (List.mem_cons_of_mem c m)
    have hc : (c == sep) = false := by
      simp only [beq_eq_false_iff_ne]
      exact fun e => h1 e.symm
    simp [jsSplitChar, hc, ih h2, consHead]


theorem dataPayloads_cons_data (l : String) (rest : List String)
    (h : jsStartsWith l "data: " = true) :
    dataPayloads (l :: rest) = jsSlice l 6 :: dataPayloads rest := by
  simp [dataPayloads, List.filter_cons, h]

theorem dataPayloads_cons_skip (l : String) (rest : List String)
    (h : jsStartsWith l "data: " = false) :
    dataPayloads (l :: rest) = dataPayloads rest := by
  simp [dataPayloads, List.filter_cons, h]

theorem processLines_ongoing : ∀ (ls : List String) (cont res : String),
    processLines ls cont = Outcome.ongoing res →
    res = cont ++ concatAll (dataPayloads ls) := by
  intro ls
  induction ls with
  | nil =>
    intro cont res h
    simp [processLines] at h
    simp [dataPayloads, concatAll, str_append_empty, h]
  | cons l rest ih =>
    intro cont res h
    cases h1 : jsIncludes l endOfDocMarker with
    | true => simp [processLines, h1] at h
    | false =>
      cases h2 : jsStartsWith l "data: " with
      | false =>
        rw [dataPayloads_cons_skip l rest h2]
        exact ih cont res (by simpa [processLines, h1, h2] using h)
      | true =>
        cases h3 : jsStartsWith (jsSlice l 6) "Error:" with
        | true => simp [processLines, h1, h2, h3] at h
        | false =>
          have h4 : processLines rest (cont ++ jsSlice l 6) = Outcome.ongoing res := by
            simpa [processLines, h1, h2, h3] using h
          rw [dataPayloads_cons_data l rest h2]
          rw [ih _ res h4]
          simp [concatAll, str_append_assoc]

theorem processLines_append (l1 l2 : List String) : ∀ cont : String,
    processLines (l1 ++ l2) cont =
      match processLines l1 cont with
      | Outcome.ongoing c2 => processLines l2 c2
      | o => o := by
  induction l1 with
  | nil => intro cont; simp [processLines]
  | cons l rest ih =>
    intro cont
    cases h1 : jsIncludes l endOfDocMarker with
    | true => simp [processLines, h1]
    | false =>
      cases h2 : jsStartsWith l "data: " with
      | false => simp [processLines, h1, h2, ih]
      | true =>
        cases h3 : jsStartsWith (jsSlice l 6) "Error:" with
        | true => simp [processLines, h1, h2, h3]
        | false => simp [processLines, h1, h2, h3, ih]

theorem processChunks_eq_processLines : ∀ (cs : List String) (cont : String),
    processChunks cs cont = processLines (chunkLines cs) cont := by
  intro cs
  induction cs with
  | nil => intro cont; simp [processChunks, chunkLines, processLines]
  | cons c rest ih =>
    intro cont
    have hc : chunkLines (c :: rest) = jsSplit c '\n' ++ chunkLines rest := by
      simp [chunkLines]
    rw [hc, processLines_append]
    cases h : processLines (jsSplit c '\n') cont with
    | ongoing c2 => simp [processChunks, h, ih]
    | errored m ct => simp [processChunks, h]
    | fetched id ct => simp [processChunks, h]

theorem sentinel_line_data (id : String) :
    ("[END_OF_DOC=" ++ id ++ "]").data
      = "[END_OF_DOC".data ++ '=' :: (id.data ++ [']']) := by
  show ("[END_OF_DOC=".data ++ id.data) ++ [']']
      = "[END_OF_DOC".data ++ '=' :: (id.data ++ [']'])
  have : "[END_OF_DOC=".data = "[END_OF_DOC".data ++ ['='] := by decide
  rw [this]
  simp

theorem sentinel_split (id : String) (h : ∀ c ∈ id.data, c ≠ '=') :
    jsSplitEq1 ("[END_OF_DOC=" ++ id ++ "]") = id ++ "]" := by
  have hm : '=' ∉ id.data ++ [']'] := by
    intro hmem
    rcases List.mem_append.mp hmem with h1 | h1
    · exact h '=' h1 rfl
    · exact absurd h1 (by decide)
  unfold jsSplitEq1 jsSplit
  rw [sentinel_line_data id, jsSplitChar_append '=' _ _ (by decide),
    jsSplitChar_not_mem '=' _ hm]
  rfl

theorem sentinel_includes (id : String) :
    jsIncludes ("[END_OF_DOC=" ++ id ++ "]") endOfDocMarker = true := by
  apply containsL_of_startsWithL
  have : ("[END_OF_DOC=" ++ id ++ "]").data
      = endOfDocMarker.data ++ (id.data ++ [']']) := by
    rw [sentinel_line_data id]
    show "[END_OF_DOC".data ++ '=' :: (id.data ++ [']'])
        = ("[END_OF_DOC".data ++ ['=']) ++ (id.data ++ [']'])
    simp
  rw [this]
  exact startsWithL_append _ _

theorem sentinel_chunk (id : String) (h : ∀ c ∈ id.data, c ≠ '\n') :
    jsSplit ("[END_OF_DOC=" ++ id ++ "]") '\n' = ["[END_OF_DOC=" ++ id ++ "]"] := by
  unfold jsSplit
  rw [jsSplitChar_not_mem]
  · rfl
  · intro hmem
    rw [sentinel_line_data id] at hmem
    rcases List.mem_append.mp hmem with h1 | h1
    · exact absurd h1 (by decide)
    · rcases List.mem_cons.mp h1 with h2 | h2
      · exact absurd h2 (by decide)
      · rcases List.mem_append.mp h2 with h3 | h3
        · exact h '\n' h3 rfl
        · exact absurd h3 (by decide)

/-! ## Claim theorems -/

/-- C1 (amended): for a sentinel line of the form
`[END_OF_DOC=<id>]` (identifier free of `'='` and newlines), the streaming
client stops consuming the stream — the remaining lines and chunks are
never examined — and issues exactly one full-document retrieval request;
but the `contract_id` it sends is `line.split("=")[1]`, which is the
identifier with the closing `']'` still attached, not the identifier
between `'='` and `']'`. -/
theorem sentinel_triggers_one_retrieval (id : String)
    (h : ∀ c ∈ id.data, c ≠ '=' ∧ c ≠ '\n') :
    (∀ (rest : List String) (cont : String),
        processLines (("[END_OF_DOC=" ++ id ++ "]") :: rest) cont
          = Outcome.fetched (id ++ "]") cont)
    ∧ (∀ (α : Type) (more : List String) (e : StreamEnd)
          (r : String → Except String α),
        (runSession (("[END_OF_DOC=" ++ id ++ "]") :: more) e r).fetchRequests
          = [id ++ "]"]) := by
  have heq : ∀ c ∈ id.data, c ≠ '=' := fun c hc => (h c hc).1
  have hnl : ∀ c ∈ id.data, c ≠ '\n' := fun c hc => (h c hc).2
  have hline : ∀ (rest : List String) (cont : String),
      processLines (("[END_OF_DOC=" ++ id ++ "]") :: rest) cont
        = Outcome.fetched (id ++ "]") cont := by
    intro rest cont
    simp [processLines, sentinel_includes id, sentinel_split id heq]
  refine ⟨hline, ?_⟩
  intro α more e r
  have hch : processChunks (("[END_OF_DOC=" ++ id ++ "]") :: more) ""
      = Outcome.fetched (id ++ "]") "" := by
    simp [processChunks, sentinel_chunk id hnl, hline [] ""]
  rw [runSession, hch]
  cases hr : r (id ++ "]") with
  | ok d => simp [hr]
  | error e2 => simp [hr]

/-- Witness for C1's theorem at the concrete identifier `abc123`. -/
theorem sentinel_triggers_one_retrieval_witness :
    processLines ["[END_OF_DOC=abc123]"] "" = Outcome.fetched "abc123]" ""
    ∧ (runSession ["[END_OF_DOC=abc123]"] StreamEnd.eof
        (fun _ => (Except.ok "doc" : Except String String))).fetchRequests
      = ["abc123]"] := by
  constructor
  · exact (sentinel_triggers_one_retrieval "abc123" (by decide)).1 [] ""
  · exact (sentinel_triggers_one_retrieval "abc123" (by decide)).2 String []
      StreamEnd.eof (fun _ => Except.ok "doc")

/-- C1 (counterexample): on the sentinel line `[END_OF_DOC=abc123]` the
client posts `contract_id = "abc123]"`, not the identifier `"abc123"`
between `'='` and the closing `']'`. -/
theorem sentinel_bracket_not_stripped :
    (runSession ["[END_OF_DOC=abc123]"] StreamEnd.eof
        (fun _ => (Except.error "HTTP error! status: 404" : Except String String))).fetchRequests
      = ["abc123]"]
    ∧ ("abc123]" : String) ≠ "abc123" := by
  exact ⟨by decide, by decide⟩

/-- C9 (amended): sentinel detection is substring containment checked
before data-line parsing: any line containing `[END_OF_DOC=` anywhere —
data payload lines included — immediately terminates the loop with a
full-document retrieval; the `contract_id` sent is `line.split("=")[1]`,
the text between the line's first and second `'='` (which equals the text
after the first `'='` only when the line has no further `'='`). -/
theorem marker_anywhere_triggers_fetch :
    ∀ (line : String) (rest : List String) (cont : String),
      jsIncludes line endOfDocMarker = true →
      processLines (line :: rest) cont
        = Outcome.fetched (jsSplitEq1 line) cont := by
  intro line rest cont h
  simp [processLines, h]

/-- Witness for C9's theorem: a data payload line that merely mentions the
marker terminates the stream, and later lines are ignored. -/
theorem marker_anywhere_triggers_fetch_witness :
    processLines ["data: hi [END_OF_DOC=7]", "data: more"] ""
      = Outcome.fetched "7]" "" := by
  exact marker_anywhere_triggers_fetch "data: hi [END_OF_DOC=7]" ["data: more"]
    "" (by decide)

/-- C9 (counterexample): on a line with a second `'='` the retrieval id is
the text between the first and second `'='`, not the text after the first
`'='`. -/
theorem marker_split_second_field :
    processLines ["data: x[END_OF_DOC=a=b]"] "" = Outcome.fetched "a" ""
    ∧ afterFirstEq "data: x[END_OF_DOC=a=b]" = "a=b]"
    ∧ ("a" : String) ≠ "a=b]" := by
  exact ⟨by decide, by decide, by decide⟩

/-- C2 (amended): the displayed partial content is exactly the
concatenation, in arrival order, of the payloads of the data lines the
client forms — where lines are obtained by splitting each received chunk
on newlines independently.  A data line that spans a chunk boundary is not
reassembled, so the property holds for per-chunk lines, not for the lines
of the reassembled stream. -/
theorem streamed_content_is_payload_concat :
    (∀ (ls : List String) (c : String),
        processLines ls "" = Outcome.ongoing c →
        c = concatAll (dataPayloads ls))
    ∧ (∀ (cs : List String) (c : String),
        processChunks cs "" = Outcome.ongoing c →
        c = concatAll (dataPayloads (chunkLines cs))) := by
  constructor
  · intro ls c h
    exact processLines_ongoing ls "" c h
  · intro cs c h
    rw [processChunks_eq_processLines] at h
    exact processLines_ongoing _ "" c h

/-- Witness for C2's theorem on a concrete line list and chunk list. -/
theorem streamed_content_witness :
    ("ab" : String) = concatAll (dataPayloads ["data: a", "x", "data: b"])
    ∧ ("ab" : String) = concatAll (dataPayloads (chunkLines ["data: a\ndata: b"])) := by
  constructor
  · exact streamed_content_is_payload_concat.1 ["data: a", "x", "data: b"] "ab"
      (by decide)
  · exact streamed_content_is_payload_concat.2 ["data: a\ndata: b"] "ab"
      (by decide)

/-- C2 (counterexample): a data line delivered across a chunk boundary is
not reassembled — after receiving the chunks `"data: hel"` and `"lo"` the
displayed content is `"hel"`, while the payload concatenation of the data
lines of the reassembled stream is `"hello"`. -/
theorem chunk_boundary_drops_payload :
    processChunks ["data: hel", "lo"] "" = Outcome.ongoing "hel"
    ∧ concatAll (dataPayloads (receivedLines ["data: hel", "lo"])) = "hello"
    ∧ ("hel" : String) ≠ "hello" := by
  exact ⟨by decide, by decide, by decide⟩

/-- C3 (amended): if a received data line's payload starts with `Error:`
and the line does not contain the `[END_OF_DOC=` marker (which is checked
first and would win), the client throws the payload: the session ends in
the Errored state surfacing exactly that payload, the payload is never
appended to the displayed content, no full-document retrieval is issued,
and `contractData` stays `null`. -/
theorem error_payload_ends_session :
    (∀ (line : String) (rest : List String) (cont : String),
        jsIncludes line endOfDocMarker = false →
        jsStartsWith line "data: " = true →
        jsStartsWith (jsSlice line 6) "Error:" = true →
        processLines (line :: rest) cont
          = Outcome.errored (jsSlice line 6) cont)
    ∧ (∀ (α : Type) (cs : List String) (e : StreamEnd)
          (r : String → Except String α) (m cont : String),
        processChunks cs "" = Outcome.errored m cont →
        runSession cs e r =
          { isGenerating := false, contractData := none,
            streamingContent := cont, error := some m, fetchRequests := [] }) := by
  constructor
  · intro line rest cont h1 h2 h3
    simp [processLines, h1, h2, h3]
  · intro α cs e r m cont h
    rw [runSession, h]

/-- Witness for C3's theorem on the concrete line `"data: Error: boom"`. -/
theorem error_payload_ends_session_witness :
    processLines ["data: Error: boom"] "" = Outcome.errored "Error: boom" ""
    ∧ runSession ["data: Error: boom"] StreamEnd.eof
        (fun _ => (Except.error "nf" : Except String String))
      = { isGenerating := false, contractData := none, streamingContent := "",
          error := some "Error: boom", fetchRequests := [] } := by
  constructor
  · exact error_payload_ends_session.1 "data: Error: boom" [] ""
      (by decide) (by decide) (by decide)
  · exact error_payload_ends_session.2 String ["data: Error: boom"]
      StreamEnd.eof (fun _ => Except.error "nf") "Error: boom" "" (by decide)

/-- C3 (counterexample): a data line whose payload starts with `Error:`
but also contains the sentinel marker does not end the session in the
Errored state — the sentinel check runs first, so a full-document
retrieval is issued and the surfaced error (if any) is the retrieval
failure, not the payload. -/
theorem error_payload_beaten_by_marker :
    jsStartsWith "data: Error: fail [END_OF_DOC=9]" "data: " = true
    ∧ jsStartsWith (jsSlice "data: Error: fail [END_OF_DOC=9]" 6) "Error:" = true
    ∧ (runSession ["data: Error: fail [END_OF_DOC=9]"] StreamEnd.eof
        (fun _ => (Except.error "HTTP error! status: 404" : Except String String))).fetchRequests
      = ["9]"]
    ∧ (runSession ["data: Error: fail [END_OF_DOC=9]"] StreamEnd.eof
        (fun _ => (Except.error "HTTP error! status: 404" : Except String String))).error
      ≠ some (jsSlice "data: Error: fail [END_OF_DOC=9]" 6) := by
  exact ⟨by decide, by decide, by decide, by decide⟩

/-- C4: when the user stops generation while the stream is still being
consumed, the abort signal makes the pending read throw `AbortError`: the
session ends with the cancellation message and `isGenerating = false`, no
full-document retrieval is issued, and `contractData` remains `null`. -/
theorem cancel_leaves_no_document :
    ∀ (α : Type) (cs : List String) (cont : String)
      (r : String → Except String α),
      processChunks cs "" = Outcome.ongoing cont →
      runSession cs StreamEnd.aborted r =
        { isGenerating := false, contractData := none,
          streamingContent := cont,
          error := some "Contract generation was cancelled",
          fetchRequests := [] } := by
  intro α cs cont r h
  rw [runSession, h]

/-- Witness for C4's theorem: cancelling after one partial data line. -/
theorem cancel_leaves_no_document_witness :
    runSession ["data: par"] StreamEnd.aborted
        (fun _ => (Except.error "nf" : Except String String))
      = { isGenerating := false, contractData := none,
          streamingContent := "par",
          error := some "Contract generation was cancelled",
          fetchRequests := [] } := by
  exact cancel_leaves_no_document String ["data: par"] "par"
    (fun _ => Except.error "nf") (by decide)

theorem submitted_type_const : ∀ (evs : List FormEvent) (st : FormState)
    (f : SubmittedForm), f ∈ submittedForms st evs →
    f.contract_type = st.contractType := by
  intro evs
  induction evs with
  | nil =>
    intro st f h
    simp [submittedForms] at h
  | cons e rest ih =>
    intro st f h
    cases e with
    | setDescription s =>
      have h2 : f ∈ submittedForms { st with businessDescription := s } rest := by
        simpa [submittedForms, formStep] using h
      simpa using ih _ f h2
    | submitForm =>
      by_cases hc : jsTrim st.businessDescription = ""
      · have h2 : f ∈ submittedForms st rest := by
          simpa [submittedForms, formStep, handleSubmit, hc] using h
        exact ih st f h2
      · have h2 : f = SubmittedForm.mk
              (BusinessContext.mk (jsTrim st.businessDescription) none none none)
              st.contractType
            ∨ f ∈ submittedForms st rest := by
          simpa [submittedForms, formStep, handleSubmit, hc] using h
        rcases h2 with rfl | h2
        · rfl
        · exact ih st f h2

/-- C7 (counterexample): it is not the case that every `ContractType`
value is reachable in a submitted request — no sequence of interactions on
the rendered form submits `ContractType.nda`, because the contract-type
selector is commented out. -/
theorem contract_type_not_selectable :
    ¬ ∀ ct : ContractType, ∃ evs : List FormEvent,
        ∃ f ∈ submittedForms initialFormState evs, f.contract_type = ct := by
  intro hall
  obtain ⟨evs, f, hmem, hct⟩ := hall ContractType.nda
  have h := submitted_type_const evs initialFormState f hmem
  rw [hct] at h
  exact absurd h (by decide)

/-- C7 (amended): the contract-type selector is commented out of the
rendered form, so `contract_type` is never determined by a user selection:
every request any interaction sequence submits carries the initial value
`ContractType.terms_of_service`, and the other enumeration values are
unreachable. -/
theorem form_submits_only_terms_of_service :
    ∀ (evs : List FormEvent) (f : SubmittedForm),
      f ∈ submittedForms initialFormState evs →
      f.contract_type = ContractType.terms_of_service := by
  intro evs f h
  exact submitted_type_const evs initialFormState f h

/-- Witness for C7's theorem at a concrete interaction sequence. -/
theorem form_submits_only_terms_of_service_witness :
    ({ business_context := { description := "x" },
       contract_type := ContractType.terms_of_service } : SubmittedForm).contract_type
      = ContractType.terms_of_service := by
  exact form_submits_only_terms_of_service
    [FormEvent.setDescription "x", FormEvent.submitForm] _ (by decide)

/-- C8: the form never submits an empty or whitespace-only business
description; what it submits is the user's text with surrounding
whitespace trimmed, which is non-empty, so the server-side
non-empty-description validation (modelled by `descriptionNonEmpty`)
accepts every form-submitted request. -/
theorem form_never_submits_empty_description :
    ∀ (s : String) (ct : ContractType),
      (jsTrim s = "" → handleSubmit s ct = none)
      ∧ ∀ f, handleSubmit s ct = some f →
          f.business_context.description = jsTrim s
          ∧ descriptionNonEmpty f.business_context = true := by
  intro s ct
  constructor
  · intro h
    simp [handleSubmit, h]
  · intro f h
    unfold handleSubmit at h
    split at h
    · exact absurd h (by simp)
    · rename_i hc
      cases h
      exact ⟨rfl, by simp [descriptionNonEmpty, hc]⟩

/-- Witness for C8's theorem: a whitespace-only description is rejected,
and a padded description is submitted trimmed and passes validation. -/
theorem form_never_submits_empty_description_witness :
    handleSubmit " " ContractType.terms_of_service = none
    ∧ ({ business_context := { description := "hi" },
         contract_type := ContractType.nda } : SubmittedForm).business_context.description
        = jsTrim "  hi "
    ∧ descriptionNonEmpty
        ({ description := "hi" } : BusinessContext) = true := by
  refine ⟨(form_never_submits_empty_description " " ContractType.terms_of_service).1
    (by decide), ?_, ?_⟩
  · exact ((form_never_submits_empty_description "  hi " ContractType.nda).2
      { business_context := { description := "hi" },
        contract_type := ContractType.nda } (by decide)).1
  · exact ((form_never_submits_empty_description "  hi " ContractType.nda).2
      { business_context := { description := "hi" },
        contract_type := ContractType.nda } (by decide)).2

/-- C6 (counterexample): the object the form submits does not conform to
`ContractGenerationRequest` — it lacks the required `language` field. -/
theorem submitted_request_not_conformant :
    conformsToContractGenerationRequest submittedRequestFields = false := by
  decide

/-- C6 (amended): every generation request submitted by the form carries a
`business_context` and an enumerated `contract_type`, but no `language`
field, so it does not conform to `ContractGenerationRequest`, whose
`language` field is required. -/
theorem submitted_request_misses_language :
    submittedRequestFields.contains "business_context" = true
    ∧ submittedRequestFields.contains "contract_type" = true
    ∧ submittedRequestFields.contains "language" = false
    ∧ conformsToContractGenerationRequest submittedRequestFields = false := by
  exact ⟨by decide, by decide, by decide, by decide⟩

/-- C5 (counterexample): not every field the completed view reads exists
on the retrieval response type — `htmlContent` is not a field of
`ContractGenerationResponse`. -/
theorem completed_view_reads_missing_field :
    completedViewFieldsRead.all
      (fun f => contractGenerationResponseFields.contains f) = false := by
  decide

/-- C5 (amended): once the full-document fetch completes the client
renders the completed view in place of the streamed partial view, and the
metadata fields it reads (contract type, total section count, estimated
page count, generation time, model used) all exist on the retrieval
response type; but the rendered-content field it reads, `htmlContent`,
does not exist on that type. -/
theorem completed_view_fields :
    completedViewMetadataFields.all
      (fun f => contractGenerationResponseFields.contains f) = true
    ∧ contractGenerationResponseFields.contains "htmlContent" = false
    ∧ ∀ (α : Type) (st : GenFinal α) (d : α),
        st.contractData = some d →
        showsCompletedView st = true ∧ showsPartialStream st = false := by
  refine ⟨by decide, by decide, ?_⟩
  intro α st d h
  simp [showsCompletedView, showsPartialStream, h]

/-- Witness for C5's theorem on a concrete completed-session state. -/
theorem completed_view_fields_witness :
    showsCompletedView
        ({ isGenerating := false, contractData := some "doc",
           streamingContent := "partial", error := none,
           fetchRequests := ["1"] } : GenFinal String) = true
    ∧ showsPartialStream
        ({ isGenerating := false, contractData := some "doc",
           streamingContent := "partial", error := none,
           fetchRequests := ["1"] } : GenFinal String) = false := by
  exact completed_view_fields.2.2 String
    { isGenerating := false, contractData := some "doc",
      streamingContent := "partial", error := none, fetchRequests := ["1"] }
    "doc" rfl

theorem lookup_businessContext_none {α : Type} :
    ∀ (cd : List (String × α)),
      (∀ kv ∈ cd, kv.1 ∈ contractDataStateFields) →
      List.lookup "businessContext" cd = none := by
  intro cd
  induction cd with
  | nil => intro; rfl
  | cons kv rest ih =>
    intro h
    have h1 : kv.1 ∈ contractDataStateFields := h kv (List.mem_cons_self _ _)
    have hne : ("businessContext" == kv.1) = false := by
      simp only [beq_eq_false_iff_ne]
      intro e
      rw [← e] at h1
      exact absurd h1 (by decide)
    have h2 : ∀ kv2 ∈ rest, kv2.1 ∈ contractDataStateFields :=
      fun kv2 hm => h kv2 (List.mem_cons_of_mem _ hm)
    simpa [List.lookup, hne] using ih h2

/-- C10: the download handler reads `contractData.businessContext`, but
`businessContext` is not a field of the client's `ContractData` state, so
the `businessContext` carried by every download request is `undefined`
regardless of the original generation request. -/
theorem download_businessContext_undefined :
    contractDataStateFields.contains "businessContext" = false
    ∧ ∀ (α : Type) (cd : List (String × α)),
        (∀ kv ∈ cd, kv.1 ∈ contractDataStateFields) →
        downloadBodyBusinessContext cd = none := by
  refine ⟨by decide, ?_⟩
  intro α cd h
  exact lookup_businessContext_none cd h

/-- Witness for C10's theorem on a concrete `contractData` object. -/
theorem download_businessContext_undefined_witness :
    downloadBodyBusinessContext
        [("contractId", "abc"), ("htmlContent", "<p>hi</p>")] = none := by
  exact download_businessContext_undefined.2 String
    [("contractId", "abc"), ("htmlContent", "<p>hi</p>")] (by decide)
